import Mathlib

/-!
Verification development for the context-keeper plugin: a shallow embedding of
the session-summary persistence and retrieval protocol (transcript reader,
content extractor, artifact store, index maintenance, and the read-side
injection hook), with theorems checking the documented behaviour.

Python strings are modelled as `List Char` (`Str`); JSON values as the
inductive `JVal`; dictionaries as association lists in insertion order.
File-system state is modelled explicitly as a `Store` structure mirroring the
on-disk layout `.claude/summaries/<session>/<timestamp>/{summary.md,metadata.json}`
plus the `latest` symlink and `index.json`.
-/

namespace ContextKeeper

/-- Python strings, modelled as character lists. -/
abbrev Str := List Char

/-- Coerce a Lean string literal into the `Str` model. -/
def str (s : String) : Str := s.data

/-- Python substring `startswith`: `startsWith l m` means `l` starts with `m`. -/
def startsWith : Str → Str → Bool
  | _, [] => true
  | [], _ :: _ => false
  | a :: as, b :: bs => a == b && startsWith as bs

/-- Python's `m in l` substring containment: `hasSub l m`. -/
def hasSub : Str → Str → Bool
  | [], m => startsWith [] m
  | l@(_ :: t), m => startsWith l m || hasSub t m

/-- Python lexicographic string `<` on code points. -/
def strLt : Str → Str → Bool
  | [], [] => false
  | [], _ :: _ => true
  | _ :: _, [] => false
  | a :: as, b :: bs => if a = b then strLt as bs else decide (a < b)

/-- Python lexicographic string `<=` on code points. -/
def strLe (a b : Str) : Bool := strLt a b || a == b

/-- JSON values as produced by `json.loads`. -/
inductive JVal where
  | s (v : Str)
  | n (v : Int)
  | arr (xs : List JVal)
  | obj (fields : List (String × JVal))
  | bool (b : Bool)
  | null

/-- A parsed JSON object (Python dict), keys in insertion order. -/
abbrev Dict := List (String × JVal)

/-- Python `d.get(k, default)`. -/
def getD (d : Dict) (k : String) (default : JVal) : JVal :=
  match d.find? (fun p => p.1 == k) with
  | some p => p.2
  | none => default

/-- Test whether a `JVal` equals a given string (Python `v == 'lit'`;
false for non-strings, as in Python). -/
def isJStr (v : JVal) (lit : String) : Bool :=
  match v with
  | .s t => t == str lit
  | _ => false

/-- Python truthiness of a string after `.strip()`: nonempty modulo whitespace. -/
def pyStripTruthy (s : Str) : Bool := s.any (fun c => !c.isWhitespace)

/-- The literal system-reminder marker checked by the extractors. -/
def markerS : Str := str "<system-reminder>"

/-- Insert into a Python `set`, modelled as a first-occurrence-ordered
deduplicated list (CPython's set iteration order is unspecified; the model
fixes insertion order, which no claim depends on). -/
def insertUniq (l : List Str) (x : Str) : List Str :=
  if x ∈ l then l else l ++ [x]

/-- `', '.join`-style separator join. -/
def joinSep (sep : Str) : List Str → Str
  | [] => []
  | [x] => x
  | x :: y :: xs => x ++ sep ++ joinSep sep (y :: xs)

/-- Order-preserving concat-map, modelling a loop appending to several lists. -/
def concatMap (f : α → List β) : List α → List β
  | [] => []
  | x :: xs => f x ++ concatMap f xs

/-! ## Content extractor (context-keeper-plugin/hooks/precompact.py) -/

/-- Logical role of a message, decided by the `if/elif` chain of
`extract_conversation_content` (top-level `type` first, nested `message.role`
as fallback). -/
inductive MsgClass where
  | user | assistant | toolUse | other
  deriving DecidableEq

namespace Precompact

/-- `msg.get('message', {})` — `{}` when absent. -/
def nestedVal (msg : Dict) : JVal := getD msg "message" (.obj [])

/-- `nested_msg.get('role', '') if isinstance(nested_msg, dict) else ''`. -/
def roleOf (msg : Dict) : JVal :=
  match nestedVal msg with
  | .obj fs => getD fs "role" (.s [])
  | _ => .s []

/-- `nested_msg.get('content', '') if isinstance(nested_msg, dict) else
msg.get('content', '')`. -/
def contentOf (msg : Dict) : JVal :=
  match nestedVal msg with
  | .obj fs => getD fs "content" (.s [])
  | _ => getD msg "content" (.s [])

/-- Role dispatch: `if msg_type == 'user' or role == 'user': ... elif
msg_type == 'assistant' or role == 'assistant': ... elif msg_type ==
'tool_use': ...`. -/
def classify (msg : Dict) : MsgClass :=
  let ty := getD msg "type" (.s [])
  let role := roleOf msg
  if isJStr ty "user" || isJStr role "user" then .user
  else if isJStr ty "assistant" || isJStr role "assistant" then .assistant
  else if isJStr ty "tool_use" then .toolUse
  else .other

/-- One `text`-typed content block of a user message: kept (truncated to 2000
characters) only when nonempty and free of the system-reminder marker.
(A truthy non-string `text` value would raise a `TypeError` in Python on the
marker check; such payloads contribute nothing in the model.) -/
def userTextOfBlock : JVal → Option Str
  | .obj fs =>
    if isJStr (getD fs "type" (.s [])) "text" then
      match getD fs "text" (.s []) with
      | .s t => if !t.isEmpty && !hasSub t markerS then some (t.take 2000) else none
      | _ => none
    else none
  | _ => none

/-- User-message text samples from a content value (plain string or list of
typed blocks). -/
def userTextsOfContent : JVal → List Str
  | .s s =>
    if pyStripTruthy s then (if hasSub s markerS then [] else [s.take 2000]) else []
  | .arr blocks => blocks.filterMap userTextOfBlock
  | _ => []

/-- One `text`-typed content block of an assistant message (no marker check
in the source). -/
def asstTextOfBlock : JVal → Option Str
  | .obj fs =>
    if isJStr (getD fs "type" (.s [])) "text" then
      match getD fs "text" (.s []) with
      | .s t => if !t.isEmpty then some (t.take 2000) else none
      | _ => none
    else none
  | _ => none

/-- Assistant-message text samples from a content value. -/
def asstTextsOfContent : JVal → List Str
  | .s s => if pyStripTruthy s then [s.take 2000] else []
  | .arr blocks => blocks.filterMap asstTextOfBlock
  | _ => []

/-- `block.get('name', 'unknown')`, collapsed to `Str` (a non-string name is
never in the file-mutation list and only flows into display text). -/
def toolNameOfFields (fs : Dict) : Str :=
  match getD fs "name" (.s (str "unknown")) with
  | .s t => t
  | _ => str "unknown"

/-- A `tool_use`-typed content block: `(tool name, input parameters)`. -/
def toolCallOfBlock : JVal → Option (Str × JVal)
  | .obj fs =>
    if isJStr (getD fs "type" (.s [])) "tool_use" then
      some (toolNameOfFields fs, getD fs "input" (.obj []))
    else none
  | _ => none

/-- File-mutation tracking: for `Edit`/`Write`/`MultiEdit`/`NotebookEdit`,
extract `file_path` (or `notebook_path`) from the tool input. (A non-dict
input would raise `AttributeError` in Python; a non-string path only flows
into the set; neither contributes a tracked path in the model.) -/
def fileOfToolInput (name : Str) (input : JVal) : Option Str :=
  if name == str "Edit" || name == str "Write" || name == str "MultiEdit"
      || name == str "NotebookEdit" then
    match input with
    | .obj ifs =>
      match getD ifs "file_path" (getD ifs "notebook_path" (.s [])) with
      | .s p => if !p.isEmpty then some p else none
      | _ => none
    | _ => none
  else none

/-- Tool calls recorded for one message: `tool_use` blocks of an assistant
message, or a direct `tool_use`-typed message (older format). -/
def toolCallsOfMsg (m : Dict) : List (Str × JVal) :=
  match classify m with
  | .assistant =>
    match contentOf m with
    | .arr blocks => blocks.filterMap toolCallOfBlock
    | _ => []
  | .toolUse => [(toolNameOfFields m, getD m "input" (.obj []))]
  | _ => []

/-- Modified-file paths contributed by one message. -/
def filesOfMsg (m : Dict) : List Str :=
  (toolCallsOfMsg m).filterMap (fun p => fileOfToolInput p.1 p.2)

/-- The Extracted Content record returned by
`precompact.extract_conversation_content`. -/
structure Extracted where
  user_messages : List Str
  assistant_messages : List Str
  tool_calls : List (Str × JVal)
  files_modified : List Str
  message_count : Nat

/-- `extract_conversation_content(messages)` of
context-keeper-plugin/hooks/precompact.py: per-role text samples, tool-call
records, deduplicated modified files, and `message_count = len(messages)`. -/
def extract_conversation_content (messages : List Dict) : Extracted where
  user_messages :=
    concatMap (fun m => if classify m = .user then userTextsOfContent (contentOf m) else [])
      messages
  assistant_messages :=
    concatMap (fun m => if classify m = .assistant then asstTextsOfContent (contentOf m) else [])
      messages
  tool_calls := concatMap toolCallsOfMsg messages
  files_modified := (concatMap filesOfMsg messages).foldl insertUniq []
  message_count := messages.length

end Precompact

/-! ## Content extractor (context-keeper-plugin/scripts/save_memory.py) -/

namespace SaveMemory

/-- Normalized nested message object: `nested_msg = msg.get('message', {})`
followed by `if not isinstance(nested_msg, dict): nested_msg = {}`. -/
def nestedOf (msg : Dict) : Dict :=
  match getD msg "message" (.obj []) with
  | .obj fs => fs
  | _ => []

/-- `content = nested_msg.get('content', '')` (the `else msg.get('content')`
branch is dead after normalization). -/
def contentOf (msg : Dict) : JVal := getD (nestedOf msg) "content" (.s [])

/-- One truthy string timestamp field, as consumed by the `or`-chain
(`None`, absent and empty strings are falsy; a truthy non-string value would
raise a `TypeError` on the later comparisons and contributes no timestamp in
the model). -/
def tsGet (fs : Dict) (k : String) : Option Str :=
  match getD fs k .null with
  | .s t => if t.isEmpty then none else some t
  | _ => none

/-- `ts = msg.get('created_at') or msg.get('timestamp') or
nested_msg.get('created_at') or nested_msg.get('timestamp')`. -/
def msgTs (m : Dict) : Option Str :=
  (tsGet m "created_at" <|> tsGet m "timestamp") <|>
    (tsGet (nestedOf m) "created_at" <|> tsGet (nestedOf m) "timestamp")

/-- `if start_cutoff and ts and ts <= start_cutoff: continue`. -/
def skippedByCutoff (cutoff : Option Str) (m : Dict) : Bool :=
  match cutoff with
  | none => false
  | some c =>
    if c.isEmpty then false
    else
      match msgTs m with
      | some t => strLe t c
      | none => false

/-- Messages surviving the `isinstance(msg, dict)` guard and the cutoff
filter. -/
def keepMsg (cutoff : Option Str) : JVal → Option Dict
  | .obj fs => if skippedByCutoff cutoff fs then none else some fs
  | _ => none

/-- Running minimum of observed timestamps (`if start_time is None or ts <
start_time`). -/
def minTs (l : List Str) : Option Str :=
  l.foldl
    (fun acc t =>
      match acc with
      | none => some t
      | some a => if strLt t a then some t else some a) none

/-- Running maximum of observed timestamps (`if end_time is None or ts >
end_time`). -/
def maxTs (l : List Str) : Option Str :=
  l.foldl
    (fun acc t =>
      match acc with
      | none => some t
      | some a => if strLt a t then some t else some a) none

/-- Split a path on `/` separators. -/
def splitSlash : Str → List Str
  | [] => [[]]
  | c :: rest =>
    match splitSlash rest with
    | [] => [[]]
    | r :: rs => if c = '/' then [] :: r :: rs else (c :: r) :: rs

/-- Strip the common leading components of two component lists. -/
def dropCommon : List Str → List Str → List Str × List Str
  | a :: as, b :: bs => if a = b then dropCommon as bs else (a :: as, b :: bs)
  | as, bs => (as, bs)

/-- Model of `os.path.relpath(path, start)` (POSIX) for normalized absolute
inputs: strip the common prefix, replace the remaining `start` components by
`..`, and join. On POSIX this library call never raises, so the
`except ValueError` fallback in the source is dead. -/
def relpath (path start : Str) : Str :=
  let pl := (splitSlash path).filter (fun c => !c.isEmpty)
  let sl := (splitSlash start).filter (fun c => !c.isEmpty)
  let pr := dropCommon pl sl
  let parts := List.replicate pr.2.length (str "..") ++ pr.1
  if parts.isEmpty then str "." else joinSep (str "/") parts

/-- Tool calls recorded for one message (same block handling as the
precompact extractor, over this script's content lookup). -/
def toolCallsOfMsg (m : Dict) : List (Str × JVal) :=
  match Precompact.classify m with
  | .assistant =>
    match contentOf m with
    | .arr blocks => blocks.filterMap Precompact.toolCallOfBlock
    | _ => []
  | .toolUse => [(Precompact.toolNameOfFields m, getD m "input" (.obj []))]
  | _ => []

/-- Modified files contributed by one message, relativized against the
process working directory (`os.path.relpath(file_path, os.getcwd())`). -/
def filesOfMsg (cwd : Str) (m : Dict) : List Str :=
  (toolCallsOfMsg m).filterMap
    (fun p => (Precompact.fileOfToolInput p.1 p.2).map (fun fp => relpath fp cwd))

/-- The Extracted Content record returned by
`save_memory.extract_conversation_content`. -/
structure MExtracted where
  text : Str
  user_messages : List Str
  assistant_messages : List Str
  tool_calls : List (Str × JVal)
  files_modified : List Str
  message_count : Nat
  start_time : Option Str
  end_time : Option Str

/-- The per-message extraction applied to the kept (dict-typed, not
cutoff-skipped) messages. Note `message_count` counts retained text samples,
not transcript records. -/
def extractKept (cwd : Str) (kept : List Dict) : MExtracted :=
  let users :=
    concatMap
      (fun m =>
        if Precompact.classify m = .user then Precompact.userTextsOfContent (contentOf m)
        else []) kept
  let assts :=
    concatMap
      (fun m =>
        if Precompact.classify m = .assistant then Precompact.asstTextsOfContent (contentOf m)
        else []) kept
  { text := joinSep (str "\n\n") (users ++ assts)
    user_messages := users
    assistant_messages := assts
    tool_calls := concatMap toolCallsOfMsg kept
    files_modified := (concatMap (filesOfMsg cwd) kept).foldl insertUniq []
    message_count := users.length + assts.length
    start_time := minTs (kept.filterMap msgTs)
    end_time := maxTs (kept.filterMap msgTs) }

/-- `extract_conversation_content(messages, start_cutoff)` of
context-keeper-plugin/scripts/save_memory.py. `cwd` models the process
working directory consulted through `os.getcwd()`. -/
def extract_conversation_content (messages : List JVal) (start_cutoff : Option Str)
    (cwd : Str) : MExtracted :=
  extractKept cwd (messages.filterMap (keepMsg start_cutoff))

end SaveMemory

/-! ## Summary generator fallback
(`generate_summary_structured` / `generate_summary` of
context-keeper-plugin/hooks/precompact.py) -/

namespace Precompact

/-- The session-info dict built by `main` and passed to the generators; all
keys are always present, so the `.get` defaults in the source are not
reachable from `main`. -/
structure SessionInfo where
  session_id : Str
  cwd : Str
  trigger : Str
  permission_mode : Str
  hook_event_name : Str
  timestamp : Str
  custom_instructions : Str

/-- Python `str.lower()` (per-character). -/
def pyLower (s : Str) : Str := s.map Char.toLower

def isAsciiAlpha (c : Char) : Bool := ('a' ≤ c && c ≤ 'z') || ('A' ≤ c && c ≤ 'Z')

/-- A regex word character (`\w`): letters, digits, underscore. -/
def isWordChar (c : Char) : Bool :=
  isAsciiAlpha c || ('0' ≤ c && c ≤ '9') || c = '_'

/-- Split into maximal word-character runs (with empties at non-word
characters, filtered by the caller). -/
def splitNonWord : Str → List Str
  | [] => [[]]
  | c :: rest =>
    match splitNonWord rest with
    | [] => [[]]
    | r :: rs => if isWordChar c then (c :: r) :: rs else [] :: r :: rs

/-- `re.findall(r'\b[a-zA-Z]{4,}\b', s)`: a match must run from word
boundary to word boundary, so it is exactly a maximal word-character run
that is entirely alphabetic and at least 4 characters long. -/
def findallAlpha4 (s : Str) : List Str :=
  ((splitNonWord s).filter (fun w => !w.isEmpty)).filter
    (fun w => w.all isAsciiAlpha && decide (4 ≤ w.length))

/-- Keyword-topic extraction: for each of the first 20 user messages, add
the first 5 matched words of the lowercased text to the topic set
(modelled, like every Python set here, as a first-occurrence-ordered
deduplicated list). -/
def topicsOf (userMsgs : List Str) : List Str :=
  (userMsgs.take 20).foldl
    (fun acc m => ((findallAlpha4 (pyLower m)).take 5).foldl insertUniq acc) []

/-- `tool_counts[tool] = tool_counts.get(tool, 0) + 1`. -/
def bump (acc : List (Str × Nat)) (t : Str) : List (Str × Nat) :=
  if acc.any (fun p => p.1 == t) then
    acc.map (fun p => if p.1 == t then (p.1, p.2 + 1) else p)
  else acc ++ [(t, 1)]

/-- The tool-usage histogram, keys in first-occurrence order. -/
def countTools (tcs : List (Str × JVal)) : List (Str × Nat) :=
  tcs.foldl (fun acc tc => bump acc tc.1) []

/-- Stable insertion for descending-count order (Python `sorted` with key
`-count` is stable: ties keep insertion order). -/
def insertByCount (x : Str × Nat) : List (Str × Nat) → List (Str × Nat)
  | [] => [x]
  | y :: ys => if y.2 ≤ x.2 then x :: y :: ys else y :: insertByCount x ys

/-- `sorted(tool_counts.items(), key=lambda x: -x[1])`. -/
def sortByCountDesc (l : List (Str × Nat)) : List (Str × Nat) :=
  l.foldr insertByCount []

/-- `{chr(10).join(f'- \x60{f}\x60' for f in files_modified) if files_modified
else '- None tracked'}`. -/
def filesSection (files : List Str) : Str :=
  if files.isEmpty then str "- None tracked"
  else joinSep (str "\n") (files.map (fun f => str "- `" ++ f ++ str "`"))

/-- The `## Tool Usage` body: top 10 tools by call count. -/
def toolSection (counts : List (Str × Nat)) : Str :=
  if counts.isEmpty then str "- None tracked"
  else
    joinSep (str "\n")
      (((sortByCountDesc counts).take 10).map
        (fun p => str "- " ++ p.1 ++ str ": " ++ str (toString p.2) ++ str " calls"))

/-- The `## Sample User Requests` body: first 5 user messages, each cut at
200 characters with an ellipsis. -/
def sampleSection (userMsgs : List Str) : Str :=
  if userMsgs.isEmpty then str "- None captured"
  else
    joinSep (str "\n")
      ((userMsgs.take 5).map
        (fun m => if 200 < m.length then str "- " ++ m.take 200 ++ str "..." else str "- " ++ m))

/-- The `## Keywords` body: first 15 topics, comma-joined. -/
def keywordsSection (topics : List Str) : Str :=
  if topics.isEmpty then str "None extracted" else joinSep (str ", ") (topics.take 15)

/-- The optional `## Custom Instructions` insert. -/
def customSection (ci : Str) : Str :=
  if ci.isEmpty then [] else str "\n## Custom Instructions\n" ++ ci ++ str "\n"

/-- `generate_summary_structured(content, session_info)`: the deterministic
fixed-template fallback, a pure function of the extracted content and the
session info. -/
def generate_summary_structured (content : Extracted) (si : SessionInfo) : Str :=
  str "# Session Summary (Structured Extraction)\n\n## Metadata\n- **Session ID:** "
    ++ si.session_id
    ++ str "\n- **Project:** " ++ si.cwd
    ++ str "\n- **Trigger:** " ++ si.trigger
    ++ str "\n- **Permission Mode:** " ++ si.permission_mode
    ++ str "\n- **Hook Event:** " ++ si.hook_event_name
    ++ str "\n- **Timestamp:** " ++ si.timestamp
    ++ str "\n- **Total Messages:** " ++ str (toString content.message_count)
    ++ str "\n" ++ customSection si.custom_instructions
    ++ str "\n\n## Files Modified\n" ++ filesSection content.files_modified
    ++ str "\n\n## Tool Usage\n" ++ toolSection (countTools content.tool_calls)
    ++ str "\n\n## Sample User Requests\n" ++ sampleSection content.user_messages
    ++ str "\n\n" ++ str "## Keywords" ++ str "\n" ++ keywordsSection (topicsOf content.user_messages)
    ++ str "\n\n---\n*Note: This is a structured extraction. LLM-based summary unavailable (no API key or error).*\n"

/-- `generate_summary(content, session_info)` with the outcome of
`generate_summary_with_llm` passed explicitly: that call returns `None` on
every failure of the LLM path (no API key, `anthropic` import/auto-install
failure, or any exception from the API call — all are caught inside it), and
`generate_summary` falls back to the structured extraction whenever the
result is falsy. -/
def generate_summary (llm : Option Str) (content : Extracted) (si : SessionInfo) : Str :=
  match llm with
  | some s => if s.isEmpty then generate_summary_structured content si else s
  | none => generate_summary_structured content si

end Precompact

/-! ## Transcript reader (`parse_transcript`, identical in
context-keeper-plugin/hooks/precompact.py and
session-persistence-plugin/hooks/precompact.py) -/

namespace Transcript

/-- One physical line of the JSONL transcript: blank (whitespace-only),
valid JSON, or malformed. -/
inductive TLine where
  | blank
  | valid (m : JVal)
  | invalid

/-- The transcript file: `none` when the path does not exist. -/
abbrev TFile := Option (List TLine)

/-- Walk the lines: blank lines are ignored, valid lines append a parsed
record, malformed lines log one error and are skipped. Returns (messages,
logged error count). -/
def parseLines : List TLine → List JVal × Nat
  | [] => ([], 0)
  | .blank :: rest => parseLines rest
  | .valid m :: rest =>
    let r := parseLines rest
    (m :: r.1, r.2)
  | .invalid :: rest =>
    let r := parseLines rest
    (r.1, r.2 + 1)

/-- `parse_transcript(transcript_path)`: a missing file logs one error and
yields no messages; otherwise the lines are processed in order. Every
failure is caught, so the reader never raises. -/
def parse_transcript : TFile → List JVal × Nat
  | none => ([], 1)
  | some lines => parseLines lines

/-- The parsed record carried by a valid line. -/
def validMsg : TLine → Option JVal
  | .valid m => some m
  | _ => none

/-- Whether a line is malformed. -/
def isInvalid : TLine → Bool
  | .invalid => true
  | _ => false

end Transcript

/-! ## Artifact store (`save_summary` / `update_index` of
context-keeper-plugin/hooks/precompact.py, `load_latest_summary` of
context-keeper-plugin/hooks/session_start.py) -/

/-- A metadata value (JSON scalar or list) as stored in `metadata.json`. -/
inductive MetaVal where
  | s (v : String)
  | n (v : Int)
  | l (v : List String)
  | b (v : Bool)
  | null
  deriving DecidableEq

/-- A metadata object (Python dict), keys in insertion order; `json.dumps`
followed by `json.loads` preserves it, so the persisted file is modelled by
the object itself. -/
abbrev Meta := List (String × MetaVal)

/-- Insert-or-overwrite into an association list with unique keys
(Python dict assignment `d[k] = v`: overwrite in place if the key exists,
otherwise append — CPython preserves insertion order). -/
def upsert : List (String × α) → String → α → List (String × α)
  | [], k, v => [(k, v)]
  | (k', v') :: rest, k, v =>
    if k' == k then (k, v) :: rest else (k', v') :: upsert rest k v

/-- Association-list lookup (Python `d.get(k)` / a directory entry read). -/
def alookup : List (String × α) → String → Option α
  | [], _ => none
  | (k', v') :: rest, k => if k' == k then some v' else alookup rest k

/-- Python dict assignment `m[k] = v` on a metadata object. -/
def setKey (m : Meta) (k : String) (v : MetaVal) : Meta := upsert m k v

/-- Python `m.get(k)` as an option. -/
def lookupKey (m : Meta) (k : String) : Option MetaVal := alookup m k

/-- Python `m.get(k, default)`. -/
def getValD (m : Meta) (k : String) (d : MetaVal) : MetaVal := (lookupKey m k).getD d

/-- One row of `index.json`. `summary_path` is always written as
`f"{session_id}/{timestamp}/summary.md"`, modelled by the (session,
timestamp) pair it denotes. -/
structure IndexEntry where
  session_id : String
  timestamp : String
  created_at : MetaVal
  trigger : MetaVal
  project : MetaVal
  message_count : MetaVal
  summary_path : String × String
  deriving DecidableEq

/-- The parsed `index.json` object. -/
structure Index where
  summaries : List IndexEntry
  last_session : Option String
  deriving DecidableEq

/-- The `index.json` file state: absent, unparsable JSON, or parsed. -/
inductive IndexFile where
  | missing
  | corrupt
  | parsed (i : Index)
  deriving DecidableEq

/-- Reading the index at the start of `update_index`: a missing or
unparsable file is treated as the empty index
`{"summaries": [], "last_session": None}`. -/
def readIndexFile : IndexFile → Index
  | .missing => ⟨[], none⟩
  | .corrupt => ⟨[], none⟩
  | .parsed i => i

/-- The denormalized entry `update_index` builds from the metadata. -/
def mkEntry (session_id timestamp : String) (metadata : Meta) : IndexEntry where
  session_id := session_id
  timestamp := timestamp
  created_at := getValD metadata "timestamp" (.s "")
  trigger := getValD metadata "trigger" (.s "")
  project := getValD metadata "cwd" (.s "")
  message_count := getValD metadata "message_count" (.n 0)
  summary_path := (session_id, timestamp)

/-- `update_index(summaries_dir, session_id, timestamp, metadata)`: read (or
default) the index, insert the new entry at position 0, set `last_session`,
and truncate to the first 100 entries. -/
def update_index (f : IndexFile) (session_id timestamp : String) (metadata : Meta) : Index where
  summaries := (mkEntry session_id timestamp metadata :: (readIndexFile f).summaries).take 100
  last_session := some session_id

/-- One `<timestamp>` directory under a session: its `summary.md` content
and its `metadata.json` (absent / unparsable / parsed). -/
structure VersionDir where
  summary : Option String
  metadata : Option (Option Meta)
  deriving DecidableEq

/-- One `<session_id>` directory: timestamp directories plus the `latest`
symlink target. -/
structure SessionDir where
  versions : List (String × VersionDir)
  latest : Option String
  deriving DecidableEq

/-- The `.claude/summaries` tree of one project root. -/
structure Store where
  dirExists : Bool
  sessions : List (String × SessionDir)
  index : IndexFile
  deriving DecidableEq

/-- `save_summary(session_id, summary, metadata, project_path)` with the
timestamp string (`datetime.now().strftime("%Y%m%d_%H%M%S")`) passed
explicitly: create the session/timestamp directory, write `summary.md`,
mutate the metadata dict with `metadata['summary_timestamp'] = timestamp`,
write `metadata.json`, point the `latest` symlink at the new timestamp
directory (the `except OSError` continue-branch is not taken in the model),
and update the global index. Returns the new store and the (mutated)
metadata object. -/
def save_summary (st : Store) (session_id : String) (summary : String) (metadata : Meta)
    (timestamp : String) : Store × Meta :=
  let meta' := setKey metadata "summary_timestamp" (.s timestamp)
  let sd := (alookup st.sessions session_id).getD ⟨[], none⟩
  let sd' : SessionDir :=
    { versions := upsert sd.versions timestamp ⟨some summary, some (some meta')⟩
      latest := some timestamp }
  ({ dirExists := true
     sessions := upsert st.sessions session_id sd'
     index := .parsed (update_index st.index session_id timestamp meta') },
   meta')

/-- The metadata mutation of `save_memory`
(context-keeper-plugin/scripts/save_memory.py):
`metadata['memory_timestamp'] = timestamp`, the dict then persisted as
`metadata.json` — the same in-place dict assignment as `save_summary`, under
the `memory_timestamp` key. -/
def saveMemoryMetaUpdate (metadata : Meta) (timestamp : String) : Meta :=
  setKey metadata "memory_timestamp" (.s timestamp)

/-- What `load_latest_summary` pairs with the summary: the parsed
`metadata.json` on the session path, or the raw index entry on the index
fallback. -/
inductive LoadedMeta where
  | fromFile (m : Meta)
  | fromIndex (e : IndexEntry)
  deriving DecidableEq

/-- Reading `metadata.json` next to a summary: `{}` when absent or
unparsable. -/
def metaOfVersion (vd : VersionDir) : Meta :=
  match vd.metadata with
  | some (some m) => m
  | _ => []

/-- The session-specific phase of `load_latest_summary`: follow the `latest`
symlink of the given session and read `summary.md` and `metadata.json`
there. Any miss falls through (returns `none` here, after which the caller
consults the index). -/
def sessionLoad (st : Store) (session_id : Option String) : Option (String × LoadedMeta) :=
  match session_id with
  | none => none
  | some s =>
    if s == "" then none
    else
      match alookup st.sessions s with
      | none => none
      | some sd =>
        match sd.latest with
        | none => none
        | some ts =>
          match alookup sd.versions ts with
          | none => none
          | some vd =>
            match vd.summary with
            | none => none
            | some content => some (content, .fromFile (metaOfVersion vd))

/-- Resolve an index entry's `summary_path` against the summaries tree. -/
def fileAtEntry (st : Store) (e : IndexEntry) : Option String :=
  match alookup st.sessions e.summary_path.1 with
  | none => none
  | some sd =>
    match alookup sd.versions e.summary_path.2 with
    | none => none
    | some vd => vd.summary

/-- The index-fallback phase of `load_latest_summary`: take the first
(most recent) entry of the index — the `jq .summaries[0]` fast path and the
full-JSON fallback agree — and read the file it references. A missing or
unparsable index, an empty entry list, or a dangling `summary_path` all
yield `none` (the code catches `json.JSONDecodeError`, `KeyError` and
`TypeError` and returns `(None, None)`). -/
def indexLoad (st : Store) : Option (String × LoadedMeta) :=
  match st.index with
  | .missing => none
  | .corrupt => none
  | .parsed i =>
    match i.summaries.head? with
    | none => none
    | some e =>
      match fileAtEntry st e with
      | none => none
      | some content => some (content, .fromIndex e)

/-- `load_latest_summary(project_path, session_id)`: `(None, None)` when the
summaries directory does not exist; otherwise the session phase, then the
index fallback. Total — the source catches every exception class it can
encounter on these paths. -/
def load_latest_summary (st : Store) (session_id : Option String) :
    Option (String × LoadedMeta) :=
  if !st.dirExists then none
  else
    match sessionLoad st session_id with
    | some r => some r
    | none => indexLoad st

/-- Reading back the `metadata.json` persisted for `(session_id, timestamp)`
from a store (used to state what `save_summary` wrote). -/
def persistedMetadata (st : Store) (session_id timestamp : String) : Option Meta :=
  match alookup st.sessions session_id with
  | none => none
  | some sd =>
    match alookup sd.versions timestamp with
    | none => none
    | some vd =>
      match vd.metadata with
      | some (some m) => some m
      | _ => none

/-- The maximum message timestamp of a transcript, in the sense of the
incremental-extraction property: the maximum (lexicographic) of the
timestamps the extractor itself reads off the records. -/
def maxTsOfMsgs (msgs : List JVal) : Option Str :=
  SaveMemory.maxTs
    (msgs.filterMap fun v =>
      match v with
      | .obj fs => SaveMemory.msgTs fs
      | _ => none)

/-! ## Read-side injection hook (`main` of
context-keeper-plugin/hooks/session_start.py; `automatic_mode` of
context-keeper-plugin/scripts/load_memory.py is the same logic over the
memories tree) -/

namespace SessionStart

/-- Outcome of `datetime.fromisoformat` (an external library call, modelled
as an oracle): failure (`ValueError`), or a parsed datetime with its
timezone-awareness (`tzinfo is not None`) and its timestamp in seconds. -/
inductive IsoParse where
  | fail
  | ok (aware : Bool) (sec : Int)

/-- The hook-input fields the control flow consults. -/
structure HookInput where
  source : String
  cwd : String
  session_id : String

/-- Terminal states of the hook. All `skip*` states and `injected` exit with
code 0; `exitErr` is the top-level `except Exception` path (exit 1). -/
inductive Outcome where
  | skipClear
  | skipStartup
  | skipNoCwd
  | skipNotFound
  | skipStale
  | injected
  | exitErr
  deriving DecidableEq

/-- Result of `created_at = metadata.get('timestamp',
metadata.get('created_at', ''))` followed by the `if created_at:` truthiness
test: falsy (no check performed), a string, or a truthy non-string (whose
`.replace` call raises an `AttributeError` that the
`except (ValueError, TypeError)` handler does not catch). -/
inductive CAResult where
  | empty
  | strVal (s : String)
  | typeErr
  deriving DecidableEq

/-- Python truthiness of a metadata value. -/
def mvTruthy : MetaVal → Bool
  | .s v => !(v == "")
  | .n i => !(i == 0)
  | .l xs => !xs.isEmpty
  | .b b => b
  | .null => false

/-- `metadata.get('timestamp', metadata.get('created_at', ''))` plus the
truthiness test on a parsed `metadata.json` object. -/
def caOfMeta (m : Meta) : CAResult :=
  let raw :=
    match lookupKey m "timestamp" with
    | some v => some v
    | none => lookupKey m "created_at"
  match raw with
  | none => .empty
  | some v =>
    if mvTruthy v then
      match v with
      | .s s => .strVal s
      | _ => .typeErr
    else .empty

/-- The recorded creation timestamp of what `load_latest_summary` returned:
from `metadata.json` on the session path, from the index entry (whose
`timestamp` key always holds the directory-name string) on the fallback. -/
def caOf : LoadedMeta → CAResult
  | .fromFile m => caOfMeta m
  | .fromIndex e => if e.timestamp == "" then .empty else .strVal e.timestamp

/-- `created_at.replace('Z', '+00:00')` (single-character pattern, so a
per-character replacement). -/
def replZ : Str → Str
  | [] => []
  | c :: rest => if c = 'Z' then str "+00:00" ++ replZ rest else c :: replZ rest

/-- The staleness gate (`age_hours > 24`): returns the early-exit outcome,
or `none` to proceed with injection. A timezone-aware parsed timestamp makes
`now` aware while `summary_time.replace(tzinfo=None)` is naive, so their
subtraction raises a `TypeError` that the handler swallows — the check is
silently bypassed and the artifact is injected regardless of age. -/
def freshnessSkips (iso : String → IsoParse) (ca : CAResult) (nowSec : Int) : Option Outcome :=
  match ca with
  | .typeErr => some .exitErr
  | .empty => none
  | .strVal s =>
    match iso (String.mk (replZ s.data)) with
    | .fail => none
    | .ok true _ => none
    | .ok false t => if 86400 < nowSec - t then some .skipStale else none

/-- `main()` of session_start.py, from reading the hook input to the
terminal state: skip on `clear`, on fresh `startup`, on a missing `cwd`;
search via `load_latest_summary`; `if not summary:` treats an empty summary
as not found; then the staleness gate; otherwise the context is injected
(written to stdout). -/
def main (iso : String → IsoParse) (inp : HookInput) (st : Store) (nowSec : Int) : Outcome :=
  if inp.source == "clear" then .skipClear
  else if inp.source == "startup" then .skipStartup
  else if inp.cwd == "" then .skipNoCwd
  else
    match load_latest_summary st (some inp.session_id) with
    | none => .skipNotFound
    | some (summary, meta) =>
      if summary == "" then .skipNotFound
      else
        match freshnessSkips iso (caOf meta) nowSec with
        | some o => o
        | none => .injected

end SessionStart

/-! ## Order predicates for the index invariant -/

/-- Lexicographic `<=` on the timestamp strings of index entries. -/
def tsLe (a b : String) : Bool := strLe a.data b.data

/-- The index-order invariant: entries newest-first (every later entry's
timestamp is lexicographically `<=` every earlier one's). -/
def newestFirst (l : List IndexEntry) : Prop :=
  l.Pairwise fun a b => tsLe b.timestamp a.timestamp = true

/-! ## Concrete inputs used by counterexamples and witnesses -/

namespace Examples

/-- The user message of the spec's extraction scenario. -/
def ex3A : Dict :=
  [("type", .s (str "user")),
   ("message", .obj [("role", .s (str "user")), ("content", .s (str "fix the login bug"))])]

/-- The assistant message of the spec's extraction scenario: a single
`tool_use` block `{name: "Edit", input: {file_path: "/repo/auth.py"}}`. -/
def ex3B : Dict :=
  [("type", .s (str "assistant")),
   ("message", .obj [("role", .s (str "assistant")),
     ("content", .arr [.obj [("type", .s (str "tool_use")), ("name", .s (str "Edit")),
       ("input", .obj [("file_path", .s (str "/repo/auth.py"))])]])])]

/-- The scenario transcript as dicts (precompact extractor input). -/
def ex3 : List Dict := [ex3A, ex3B]

/-- The scenario transcript as JSON values (save_memory extractor input). -/
def ex3J : List JVal := [.obj ex3A, .obj ex3B]

/-- An assistant message whose string content carries the system-reminder
marker. -/
def ex4m : Dict :=
  [("type", .s (str "assistant")),
   ("message", .obj [("role", .s (str "assistant")),
     ("content", .s (str "<system-reminder>secret instructions"))])]

/-- A timestamped user message. -/
def ex5a : Dict :=
  [("type", .s (str "user")), ("timestamp", .s (str "2024-01-02T00:00:00Z")),
   ("message", .obj [("role", .s (str "user")), ("content", .s (str "first message"))])]

/-- A user message carrying no timestamp field at all. -/
def ex5b : Dict :=
  [("type", .s (str "user")),
   ("message", .obj [("role", .s (str "user")), ("content", .s (str "hello"))])]

/-- A transcript mixing a timestamped and an untimestamped message. -/
def ex5 : List JVal := [.obj ex5a, .obj ex5b]

/-- A transcript in which every message carries a timestamp. -/
def ex5w : List JVal := [.obj ex5a]

/-- An empty project store (fresh project root). -/
def st0 : Store := ⟨false, [], .missing⟩

/-- A store whose summaries directory exists but holds nothing. -/
def st6 : Store := ⟨true, [], .missing⟩

/-- A sample metadata object as `main` builds it. -/
def meta0 : Meta := [("cwd", .s "/repo"), ("trigger", .s "manual"), ("message_count", .n 2)]

/-- A full index (100 entries) for the truncation witness. -/
def f100 : IndexFile :=
  .parsed ⟨List.replicate 100 (mkEntry "old" "20240101_000000" []), some "old"⟩

/-- A store holding one artifact whose recorded timestamp is timezone-aware
(as the write side always produces via `datetime.now().astimezone()`) and
years old. -/
def st9 : Store :=
  ⟨true,
   [("sess",
     ⟨[("20200101_000000",
        ⟨some "old summary",
         some (some [("timestamp", MetaVal.s "2020-01-01T00:00:00+00:00")])⟩)],
      some "20200101_000000"⟩)],
   .missing⟩

/-- Hook input: a resume after compaction in project `/repo`. -/
def inp9 : SessionStart.HookInput := ⟨"resume", "/repo", "sess"⟩

/-- `datetime.fromisoformat` on the recorded string: a timezone-aware value
at epoch second 1577836800 (2020-01-01T00:00:00+00:00). -/
def iso9aware : String → SessionStart.IsoParse := fun s =>
  if s == "2020-01-01T00:00:00+00:00" then .ok true 1577836800 else .fail

/-- The counterfactual parse of the same instant recorded without timezone
info (what the staleness check was written for). -/
def iso9naive : String → SessionStart.IsoParse := fun s =>
  if s == "2020-01-01T00:00:00+00:00" then .ok false 1577836800 else .fail

/-- `now` on 2025-10-12 (epoch seconds), years after the artifact. -/
def now9 : Int := 1760227200

end Examples

/-! ## General lemmas -/

theorem startsWith_ex : ∀ (l m : Str), startsWith l m = true ↔ ∃ b, l = m ++ b := by
  intro l m
  induction m generalizing l with
  | nil => simp [startsWith]
  | cons c cs ih =>
    cases l with
    | nil => simp [startsWith]
    | cons a as =>
      simp only [startsWith, Bool.and_eq_true, beq_iff_eq, ih, List.cons_append,
        List.cons.injEq]
      constructor
      · rintro ⟨rfl, b, rfl⟩; exact ⟨b, rfl, rfl⟩
      · rintro ⟨b, rfl, rfl⟩; exact ⟨rfl, b, rfl⟩

theorem hasSub_ex : ∀ (l m : Str), hasSub l m = true ↔ ∃ a b, l = a ++ m ++ b := by
  intro l m
  induction l with
  | nil =>
    simp only [hasSub, startsWith_ex]
    constructor
    · rintro ⟨b, h⟩; exact ⟨[], b, h⟩
    · rintro ⟨a, b, h⟩
      obtain ⟨h1, h2⟩ := List.append_eq_nil.mp h.symm
      obtain ⟨h3, h4⟩ := List.append_eq_nil.mp h1
      exact ⟨[], by simp [h4]⟩
  | cons c cs ih =>
    simp only [hasSub, Bool.or_eq_true, startsWith_ex, ih]
    constructor
    · rintro (⟨b, h⟩ | ⟨a, b, h⟩)
      · exact ⟨[], b, by simpa using h⟩
      · exact ⟨c :: a, b, by simp [h]⟩
    · rintro ⟨a, b, h⟩
      cases a with
      | nil => exact Or.inl ⟨b, by simpa using h⟩
      | cons x xs =>
        simp only [List.cons_append, List.cons.injEq] at h
        exact Or.inr ⟨xs, b, h.2⟩

/-- A substring of a truncation is a substring of the original string. -/
theorem hasSub_of_hasSub_take {l m : Str} {n : Nat} (h : hasSub (l.take n) m = true) :
    hasSub l m = true := by
  rcases (hasSub_ex _ _).mp h with ⟨a, b, hab⟩
  refine (hasSub_ex _ _).mpr ⟨a, b ++ l.drop n, ?_⟩
  conv_lhs => rw [← List.take_append_drop n l, hab]
  simp

/-- Substring containment survives prepending on the left. -/
theorem hasSub_append_left {m b : Str} (a : Str) (h : hasSub b m = true) :
    hasSub (a ++ b) m = true := by
  rcases (hasSub_ex _ _).mp h with ⟨x, y, hxy⟩
  exact (hasSub_ex _ _).mpr ⟨a ++ x, y, by simp [hxy]⟩

theorem startsWith_append (m b : Str) : startsWith (m ++ b) m = true :=
  (startsWith_ex _ _).mpr ⟨b, rfl⟩

theorem hasSub_of_startsWith {l m : Str} (h : startsWith l m = true) : hasSub l m = true := by
  cases l <;> simp [hasSub, h]

theorem mem_concatMap {f : α → List β} {l : List α} {b : β} :
    b ∈ concatMap f l ↔ ∃ a ∈ l, b ∈ f a := by
  induction l with
  | nil => simp [concatMap]
  | cons x xs ih =>
    simp only [concatMap, List.mem_append, ih, List.mem_cons]
    constructor
    · rintro (h | ⟨a, ha, hb⟩)
      · exact ⟨x, Or.inl rfl, h⟩
      · exact ⟨a, Or.inr ha, hb⟩
    · rintro ⟨a, (rfl | ha), hb⟩
      · exact Or.inl hb
      · exact Or.inr ⟨a, ha, hb⟩

theorem alookup_upsert_self (l : List (String × α)) (k : String) (v : α) :
    alookup (upsert l k v) k = some v := by
  induction l with
  | nil => simp [upsert, alookup]
  | cons p rest ih =>
    obtain ⟨k', v'⟩ := p
    by_cases h : k' = k
    · simp [upsert, alookup, h]
    · simp [upsert, alookup, h, ih]

theorem alookup_upsert_ne (l : List (String × α)) (k k' : String) (v : α) (h : k' ≠ k) :
    alookup (upsert l k v) k' = alookup l k' := by
  have hne : ¬ k = k' := fun hh => h hh.symm
  induction l with
  | nil => simp [upsert, alookup, hne]
  | cons p rest ih =>
    obtain ⟨k'', v''⟩ := p
    by_cases h2 : k'' = k
    · subst h2
      simp [upsert, alookup, hne]
    · simp [upsert, alookup, h2, ih]

theorem parseLines_spec (lines : List Transcript.TLine) :
    Transcript.parseLines lines
      = (lines.filterMap Transcript.validMsg, lines.countP Transcript.isInvalid) := by
  induction lines with
  | nil => rfl
  | cons l rest ih =>
    cases l <;>
      simp [Transcript.parseLines, ih, Transcript.validMsg, Transcript.isInvalid,
        List.countP_cons]

theorem userTextOfBlock_ok {b : JVal} {s : Str} (h : Precompact.userTextOfBlock b = some s) :
    s.length ≤ 2000 ∧ hasSub s markerS = false := by
  cases b with
  | obj fs =>
    simp only [Precompact.userTextOfBlock] at h
    split at h
    · split at h
      · split at h
        · rename_i t heq hcond
          have h4 : hasSub t markerS = false := by
            cases hst : hasSub t markerS
            · rfl
            · rw [hst] at hcond; simp at hcond
          injection h with h5
          subst h5
          refine ⟨by rw [List.length_take]; exact Nat.min_le_left _ _, ?_⟩
          rw [Bool.eq_false_iff]
          intro hcon
          rw [hasSub_of_hasSub_take hcon] at h4
          simp at h4
        · exact Option.noConfusion h
      · exact Option.noConfusion h
    · exact Option.noConfusion h
  | s v => exact Option.noConfusion h
  | n v => exact Option.noConfusion h
  | arr xs => exact Option.noConfusion h
  | bool v => exact Option.noConfusion h
  | null => exact Option.noConfusion h

theorem asstTextOfBlock_ok {b : JVal} {s : Str} (h : Precompact.asstTextOfBlock b = some s) :
    s.length ≤ 2000 := by
  cases b with
  | obj fs =>
    simp only [Precompact.asstTextOfBlock] at h
    split at h
    · split at h
      · split at h
        · injection h with h5
          subst h5
          rw [List.length_take]
          exact Nat.min_le_left _ _
        · exact Option.noConfusion h
      · exact Option.noConfusion h
    · exact Option.noConfusion h
  | s v => exact Option.noConfusion h
  | n v => exact Option.noConfusion h
  | arr xs => exact Option.noConfusion h
  | bool v => exact Option.noConfusion h
  | null => exact Option.noConfusion h

theorem userTextsOfContent_ok (c : JVal) :
    ∀ s ∈ Precompact.userTextsOfContent c, s.length ≤ 2000 ∧ hasSub s markerS = false := by
  intro s hs
  cases c with
  | s t =>
    simp only [Precompact.userTextsOfContent] at hs
    by_cases h1 : pyStripTruthy t = true
    · rw [if_pos h1] at hs
      by_cases h2 : hasSub t markerS = true
      · rw [if_pos h2] at hs
        cases hs
      · rw [if_neg h2] at hs
        rw [List.mem_singleton] at hs
        subst hs
        refine ⟨by rw [List.length_take]; exact Nat.min_le_left _ _, ?_⟩
        rw [Bool.eq_false_iff]
        intro hcon
        exact h2 (hasSub_of_hasSub_take hcon)
    · rw [if_neg h1] at hs
      cases hs
  | arr blocks =>
    simp only [Precompact.userTextsOfContent, List.mem_filterMap] at hs
    obtain ⟨b, _, hsb⟩ := hs
    exact userTextOfBlock_ok hsb
  | n v => cases hs
  | obj gs => cases hs
  | bool v => cases hs
  | null => cases hs

theorem asstTextsOfContent_ok (c : JVal) :
    ∀ s ∈ Precompact.asstTextsOfContent c, s.length ≤ 2000 := by
  intro s hs
  cases c with
  | s t =>
    simp only [Precompact.asstTextsOfContent] at hs
    by_cases h1 : pyStripTruthy t = true
    · rw [if_pos h1] at hs
      rw [List.mem_singleton] at hs
      subst hs
      rw [List.length_take]
      exact Nat.min_le_left _ _
    · rw [if_neg h1] at hs
      cases hs
  | arr blocks =>
    simp only [Precompact.asstTextsOfContent, List.mem_filterMap] at hs
    obtain ⟨b, _, hsb⟩ := hs
    exact asstTextOfBlock_ok hsb
  | n v => cases hs
  | obj gs => cases hs
  | bool v => cases hs
  | null => cases hs

theorem extractKept_fields (cwd : Str) (kept : List Dict) :
    (SaveMemory.extractKept cwd kept).user_messages
        = concatMap
            (fun m =>
              if Precompact.classify m = .user then
                Precompact.userTextsOfContent (SaveMemory.contentOf m)
              else []) kept
  ∧ (SaveMemory.extractKept cwd kept).assistant_messages
        = concatMap
            (fun m =>
              if Precompact.classify m = .assistant then
                Precompact.asstTextsOfContent (SaveMemory.contentOf m)
              else []) kept :=
  ⟨rfl, rfl⟩

/-! ## Claim theorems -/

/-- C8: for every transcript file with N valid-JSON non-blank lines and M
malformed non-blank lines interspersed, `parse_transcript` returns exactly
the N parsed records in file order and logs M errors, never raising; a
missing file yields the empty sequence plus one logged error. -/
theorem c8_parse_transcript_counts (lines : List Transcript.TLine) :
    (Transcript.parse_transcript (some lines)).1 = lines.filterMap Transcript.validMsg
  ∧ (Transcript.parse_transcript (some lines)).2 = lines.countP Transcript.isInvalid
  ∧ Transcript.parse_transcript none = ([], 1) := by
  refine ⟨?_, ?_, rfl⟩ <;> simp [Transcript.parse_transcript, parseLines_spec]

/-- C8 witness: a concrete transcript with two valid lines, one malformed
line and a blank line yields the two records in order and one error. -/
theorem c8_parse_transcript_counts_witness :
    Transcript.parse_transcript
        (some [.valid (.s (str "a")), .blank, .invalid, .valid .null])
      = ([.s (str "a"), .null], 1) := by
  have h := c8_parse_transcript_counts [.valid (.s (str "a")), .blank, .invalid, .valid .null]
  rw [Prod.ext_iff]
  exact ⟨by rw [h.1]; rfl, by rw [h.2.1]; rfl⟩

/-- C7: `generate_summary` never yields `None` and never raises — whenever
the LLM path fails (modelled by the `none` outcome of
`generate_summary_with_llm`, which catches every failure: missing API key,
package import failure, or any exception from the API call), it returns the
deterministic structured-extraction fallback, a pure function of the locally
extracted content and session info whose text contains a `## Keywords`
section. -/
theorem c7_generate_summary_fallback (content : Precompact.Extracted)
    (si : Precompact.SessionInfo) :
    Precompact.generate_summary none content si
        = Precompact.generate_summary_structured content si
  ∧ hasSub (Precompact.generate_summary none content si) (str "## Keywords") = true := by
  refine ⟨rfl, ?_⟩
  show hasSub (Precompact.generate_summary_structured content si) (str "## Keywords") = true
  unfold Precompact.generate_summary_structured
  simp only [List.append_assoc]
  iterate 23 apply hasSub_append_left
  exact hasSub_of_startsWith (startsWith_append _ _)

/-- C3 counterexample: on the spec's own scenario (one user message
"fix the login bug", one assistant `tool_use` block editing /repo/auth.py,
working directory /repo), neither extractor produces both
`files_modified = ["auth.py"]` and `message_count = 2`: the precompact hook
keeps the absolute path, and save_memory counts only extracted text samples
(the tool_use-only assistant message contributes none). -/
theorem c3_scenario_counterexample :
    ¬ (((Precompact.extract_conversation_content Examples.ex3).files_modified
            = [str "auth.py"]
        ∧ (Precompact.extract_conversation_content Examples.ex3).message_count = 2)
      ∨ ((SaveMemory.extract_conversation_content Examples.ex3J none
              (str "/repo")).files_modified = [str "auth.py"]
        ∧ (SaveMemory.extract_conversation_content Examples.ex3J none
              (str "/repo")).message_count = 2)) := by
  decide

/-- C3 (amended): on the scenario transcript, the precompact extractor
yields `files_modified = ["/repo/auth.py"]` (the absolute path — it performs
no relativization) and `message_count = 2`, while the save_memory extractor
(which relativizes against the process working directory /repo and counts
retained text samples) yields `files_modified = ["auth.py"]` and
`message_count = 1`. -/
theorem c3_scenario_amended :
    (Precompact.extract_conversation_content Examples.ex3).files_modified
        = [str "/repo/auth.py"]
  ∧ (Precompact.extract_conversation_content Examples.ex3).message_count = 2
  ∧ (Precompact.extract_conversation_content Examples.ex3).user_messages
        = [str "fix the login bug"]
  ∧ (SaveMemory.extract_conversation_content Examples.ex3J none (str "/repo")).files_modified
        = [str "auth.py"]
  ∧ (SaveMemory.extract_conversation_content Examples.ex3J none (str "/repo")).message_count
        = 1 := by
  decide

/-- C4 counterexample: assistant samples are not filtered for the
system-reminder marker — a transcript whose assistant message contains the
marker yields a retained assistant sample containing it. -/
theorem c4_marker_counterexample :
    ¬ ∀ s ∈ (Precompact.extract_conversation_content [Examples.ex4m]).assistant_messages,
        hasSub s markerS = false := by
  decide

/-- C4 (amended): in both extractors, every retained user or assistant text
sample has length at most 2000 characters, and no retained user sample
contains the system-reminder marker (marker-bearing user strings and blocks
are dropped entirely, never truncated). Assistant samples are not filtered
for the marker. -/
theorem c4_truncation_and_marker_amended (msgs : List Dict) (msgsJ : List JVal)
    (cutoff : Option Str) (cwd : Str) :
    (∀ s ∈ (Precompact.extract_conversation_content msgs).user_messages,
        s.length ≤ 2000 ∧ hasSub s markerS = false)
  ∧ (∀ s ∈ (Precompact.extract_conversation_content msgs).assistant_messages,
        s.length ≤ 2000)
  ∧ (∀ s ∈ (SaveMemory.extract_conversation_content msgsJ cutoff cwd).user_messages,
        s.length ≤ 2000 ∧ hasSub s markerS = false)
  ∧ (∀ s ∈ (SaveMemory.extract_conversation_content msgsJ cutoff cwd).assistant_messages,
        s.length ≤ 2000) := by
  refine ⟨?_, ?_, ?_, ?_⟩
  · intro s hs
    simp only [Precompact.extract_conversation_content] at hs
    rw [mem_concatMap] at hs
    obtain ⟨m, hm, hsm⟩ := hs
    split at hsm
    · exact userTextsOfContent_ok _ s hsm
    · cases hsm
  · intro s hs
    simp only [Precompact.extract_conversation_content] at hs
    rw [mem_concatMap] at hs
    obtain ⟨m, hm, hsm⟩ := hs
    split at hsm
    · exact asstTextsOfContent_ok _ s hsm
    · cases hsm
  · intro s hs
    rw [SaveMemory.extract_conversation_content, (extractKept_fields _ _).1,
      mem_concatMap] at hs
    obtain ⟨m, hm, hsm⟩ := hs
    split at hsm
    · exact userTextsOfContent_ok _ s hsm
    · cases hsm
  · intro s hs
    rw [SaveMemory.extract_conversation_content, (extractKept_fields _ _).2,
      mem_concatMap] at hs
    obtain ⟨m, hm, hsm⟩ := hs
    split at hsm
    · exact asstTextsOfContent_ok _ s hsm
    · cases hsm

/-- C4 witness: on the scenario transcript, the retained user sample is
within bounds and marker-free. -/
theorem c4_truncation_and_marker_amended_witness :
    (str "fix the login bug").length ≤ 2000
  ∧ hasSub (str "fix the login bug") markerS = false :=
  (c4_truncation_and_marker_amended Examples.ex3 Examples.ex3J none (str "/repo")).1
    (str "fix the login bug") (by decide)

/-- C5 counterexample: with the cutoff equal to the maximum message
timestamp of the transcript, extraction does not yield zero messages — a
message carrying no timestamp is never skipped. -/
theorem c5_cutoff_counterexample :
    maxTsOfMsgs Examples.ex5 = some (str "2024-01-02T00:00:00Z")
  ∧ (SaveMemory.extract_conversation_content Examples.ex5 (maxTsOfMsgs Examples.ex5)
        (str "/repo")).message_count = 1
  ∧ (SaveMemory.extract_conversation_content Examples.ex5 (maxTsOfMsgs Examples.ex5)
        (str "/repo")).user_messages = [str "hello"] := by
  decide

/-- C5 (amended): when the cutoff is a nonempty string and every dict-typed
message bears a (nonempty) timestamp lexicographically `<=` the cutoff — in
particular when the cutoff is the maximum message timestamp and every
message is timestamped — extraction skips them all and returns the empty
result; messages without a truthy timestamp are never skipped. -/
theorem c5_cutoff_amended (msgs : List JVal) (cwd c : Str)
    (hne : c.isEmpty = false)
    (hall : ∀ fs : Dict, JVal.obj fs ∈ msgs →
        ∃ t, SaveMemory.msgTs fs = some t ∧ strLe t c = true) :
    SaveMemory.extract_conversation_content msgs (some c) cwd
      = ⟨[], [], [], [], [], 0, none, none⟩ := by
  have hkept : msgs.filterMap (SaveMemory.keepMsg (some c)) = [] := by
    rw [List.filterMap_eq_nil_iff]
    intro v hv
    cases v with
    | obj fs =>
      obtain ⟨t, ht, hle⟩ := hall fs hv
      simp [SaveMemory.keepMsg, SaveMemory.skippedByCutoff, hne, ht, hle]
    | s v => rfl
    | n v => rfl
    | arr xs => rfl
    | bool v => rfl
    | null => rfl
  rw [SaveMemory.extract_conversation_content, hkept]
  rfl

/-- C5 witness: a transcript whose single message is timestamped at the
cutoff extracts nothing. -/
theorem c5_cutoff_amended_witness :
    SaveMemory.extract_conversation_content Examples.ex5w
        (some (str "2024-01-02T00:00:00Z")) (str "/repo")
      = ⟨[], [], [], [], [], 0, none, none⟩ :=
  c5_cutoff_amended Examples.ex5w (str "/repo") (str "2024-01-02T00:00:00Z") (by decide)
    (by
      intro fs hfs
      rw [show Examples.ex5w = [JVal.obj Examples.ex5a] from rfl, List.mem_singleton] at hfs
      injection hfs with h
      subst h
      exact ⟨str "2024-01-02T00:00:00Z", by decide, by decide⟩)

/-- C1: saving a summary and then loading the latest summary for that
session returns content byte-identical to the string that was written
(together with the persisted metadata). -/
theorem c1_save_then_load_roundtrip (st : Store) (session_id summary : String)
    (metadata : Meta) (timestamp : String) (h : session_id ≠ "") :
    load_latest_summary (save_summary st session_id summary metadata timestamp).1
        (some session_id)
      = some (summary, .fromFile (setKey metadata "summary_timestamp" (.s timestamp))) := by
  simp [load_latest_summary, save_summary, sessionLoad, h, alookup_upsert_self,
    metaOfVersion, setKey]

/-- C1 witness: a concrete save into an empty store rounds back the exact
content. -/
theorem c1_save_then_load_roundtrip_witness :
    load_latest_summary
        (save_summary Examples.st0 "sess" "hello world" Examples.meta0 "20250101_120000").1
        (some "sess")
      = some ("hello world",
          .fromFile (setKey Examples.meta0 "summary_timestamp" (.s "20250101_120000"))) :=
  c1_save_then_load_roundtrip Examples.st0 "sess" "hello world" Examples.meta0
    "20250101_120000" (by decide)

/-- C2: for every starting index-file state (missing, corrupt, or parsed —
including one already holding 100 or more entries), `update_index` leaves at
most 100 entries, the new entry at the front, `last_session` equal to the
new entry's session id, newest-first order preserved (when the old index was
newest-first and the new timestamp is at least every old one), and exactly
the 100 most recent entries whenever the old index already had 100 or more. -/
theorem c2_update_index_bounded (f : IndexFile) (session_id timestamp : String)
    (metadata : Meta)
    (hsort : newestFirst (readIndexFile f).summaries)
    (hnew : ∀ e ∈ (readIndexFile f).summaries, tsLe e.timestamp timestamp = true) :
    (update_index f session_id timestamp metadata).summaries.length ≤ 100
  ∧ (update_index f session_id timestamp metadata).summaries.head?
        = some (mkEntry session_id timestamp metadata)
  ∧ (update_index f session_id timestamp metadata).last_session = some session_id
  ∧ newestFirst (update_index f session_id timestamp metadata).summaries
  ∧ (100 ≤ (readIndexFile f).summaries.length →
        (update_index f session_id timestamp metadata).summaries.length = 100)
  ∧ (update_index f session_id timestamp metadata).summaries
        = (mkEntry session_id timestamp metadata :: (readIndexFile f).summaries).take 100 := by
  refine ⟨?_, ?_, rfl, ?_, ?_, rfl⟩
  · simp [update_index, List.length_take]
  · show ((mkEntry session_id timestamp metadata
        :: (readIndexFile f).summaries).take 100).head? = _
    rw [List.take_cons (by norm_num)]
    rfl
  · have hp : newestFirst
        (mkEntry session_id timestamp metadata :: (readIndexFile f).summaries) := by
      unfold newestFirst
      exact List.Pairwise.cons (fun e he => hnew e he) hsort
    exact List.Pairwise.sublist (List.take_sublist _ _) hp
  · intro h100
    simp only [update_index, List.length_take, List.length_cons]
    omega

/-- C2 witness: pushing a 101st entry onto a full, newest-first index leaves
exactly 100 entries with the new entry in front and `last_session` updated. -/
theorem c2_update_index_bounded_witness :
    (update_index Examples.f100 "s" "20250101_000000" []).summaries.length = 100
  ∧ (update_index Examples.f100 "s" "20250101_000000" []).summaries.head?
        = some (mkEntry "s" "20250101_000000" [])
  ∧ (update_index Examples.f100 "s" "20250101_000000" []).last_session = some "s" := by
  have h := c2_update_index_bounded Examples.f100 "s" "20250101_000000" []
    (by
      show List.Pairwise _ (List.replicate 100 (mkEntry "old" "20240101_000000" []))
      exact List.pairwise_replicate.mpr (Or.inr (by decide)))
    (by
      intro e he
      rw [List.eq_of_mem_replicate he]
      decide)
  exact ⟨h.2.2.2.2.1 (by rw [show (readIndexFile Examples.f100).summaries
    = List.replicate 100 (mkEntry "old" "20240101_000000" []) from rfl,
    List.length_replicate]), h.2.1, h.2.2.1⟩

/-- C6: `load_latest_summary` returns `(None, None)` — and never raises —
whenever nothing can be found: the summaries directory is absent, or the
session path finds nothing and the index file is missing, unparsable, empty,
or its most recent entry references a summary file that does not exist. -/
theorem c6_load_latest_not_found_none (st : Store) (session_id : Option String)
    (hsess : sessionLoad st session_id = none) :
    (st.dirExists = false → load_latest_summary st session_id = none)
  ∧ (st.index = .missing → load_latest_summary st session_id = none)
  ∧ (st.index = .corrupt → load_latest_summary st session_id = none)
  ∧ (∀ i, st.index = .parsed i → i.summaries = [] →
        load_latest_summary st session_id = none)
  ∧ (∀ i e, st.index = .parsed i → i.summaries.head? = some e → fileAtEntry st e = none →
        load_latest_summary st session_id = none) := by
  refine ⟨?_, ?_, ?_, ?_, ?_⟩
  · intro hd
    simp [load_latest_summary, hd]
  · intro hi
    cases hD : st.dirExists <;>
      simp [load_latest_summary, hD, hsess, indexLoad, hi]
  · intro hi
    cases hD : st.dirExists <;>
      simp [load_latest_summary, hD, hsess, indexLoad, hi]
  · intro i hi hnil
    cases hD : st.dirExists <;>
      simp [load_latest_summary, hD, hsess, indexLoad, hi, hnil]
  · intro i e hi hhead hfile
    cases hD : st.dirExists <;>
      simp [load_latest_summary, hD, hsess, indexLoad, hi, hhead, hfile]

/-- C6 witness: an existing but empty summaries tree with no index file
loads nothing. -/
theorem c6_load_latest_not_found_none_witness :
    load_latest_summary Examples.st6 (some "sess") = none :=
  (c6_load_latest_not_found_none Examples.st6 (some "sess") (by decide)).2.1 (by decide)

/-- C9: the read-side hook does NOT reliably skip stale artifacts — for an
artifact whose recorded timestamp is timezone-aware (the only kind the write
side produces) and more than 24 hours old, the `now - naive` subtraction
raises a `TypeError` that the handler swallows, and the artifact is injected
anyway; had the same instant been recorded without timezone info, the hook
would have skipped it with exit code 0 as documented. -/
theorem c9_stale_aware_artifact_injected :
    SessionStart.main Examples.iso9aware Examples.inp9 Examples.st9 Examples.now9
        = SessionStart.Outcome.injected
  ∧ 86400 < Examples.now9 - 1577836800
  ∧ SessionStart.main Examples.iso9naive Examples.inp9 Examples.st9 Examples.now9
        = SessionStart.Outcome.skipStale := by
  decide

/-- C10: `save_summary` adds exactly the `summary_timestamp` key (valued
with the name of the new timestamp directory) to the caller's metadata dict,
persists precisely that object as `metadata.json`, and leaves every other
key unchanged; `save_memory` does the same under `memory_timestamp`. -/
theorem c10_metadata_mutation (st : Store) (session_id summary : String) (metadata : Meta)
    (timestamp : String) :
    (save_summary st session_id summary metadata timestamp).2
        = setKey metadata "summary_timestamp" (.s timestamp)
  ∧ persistedMetadata (save_summary st session_id summary metadata timestamp).1
        session_id timestamp
        = some (setKey metadata "summary_timestamp" (.s timestamp))
  ∧ lookupKey (setKey metadata "summary_timestamp" (.s timestamp)) "summary_timestamp"
        = some (.s timestamp)
  ∧ (∀ k, k ≠ "summary_timestamp" →
        lookupKey (setKey metadata "summary_timestamp" (.s timestamp)) k
          = lookupKey metadata k)
  ∧ saveMemoryMetaUpdate metadata timestamp
        = setKey metadata "memory_timestamp" (.s timestamp)
  ∧ lookupKey (saveMemoryMetaUpdate metadata timestamp) "memory_timestamp"
        = some (.s timestamp)
  ∧ (∀ k, k ≠ "memory_timestamp" →
        lookupKey (saveMemoryMetaUpdate metadata timestamp) k = lookupKey metadata k) := by
  refine ⟨rfl, ?_, alookup_upsert_self _ _ _, fun k hk => alookup_upsert_ne _ _ _ _ hk, rfl,
    alookup_upsert_self _ _ _, fun k hk => alookup_upsert_ne _ _ _ _ hk⟩
  simp [persistedMetadata, save_summary, alookup_upsert_self]

/-- C10 witness: on a concrete metadata object, the timestamp key is added
and the `cwd` key is untouched. -/
theorem c10_metadata_mutation_witness :
    lookupKey (save_summary Examples.st0 "sess" "hello" Examples.meta0 "20250101_120000").2
        "summary_timestamp" = some (.s "20250101_120000")
  ∧ lookupKey (save_summary Examples.st0 "sess" "hello" Examples.meta0 "20250101_120000").2
        "cwd" = lookupKey Examples.meta0 "cwd" := by
  have h := c10_metadata_mutation Examples.st0 "sess" "hello" Examples.meta0 "20250101_120000"
  exact ⟨by rw [h.1]; exact h.2.2.1, by rw [h.1]; exact h.2.2.2.1 "cwd" (by decide)⟩

end ContextKeeper
